import Mathlib

set_option synthInstance.maxSize 2048

/-!
Verification development for the route-planning engine of
`app/pathplanning/pathplanning.py` (class `Pathplanner`).

The Python class is embedded shallowly:

* grid coordinates are `Int × Int` (the source compares against `0` and the
  numpy shape);
* the cost map is a `List (List Nat)` built from an 8-bit intensity image by
  `np.clip(255 - image, 1, 255)`;
* the two external dependencies — `skimage.graph.route_through_array` and the
  `mlrose` genetic TSP solver — are opaque function parameters (`Router`,
  `Tsp`); the spec treats both as black boxes;
* Python exceptions are an explicit `Except Err` result;
* the pickle cache file is a `CacheFile` value describing what `pickle.load`
  would yield: absent file, `EOFError`, some other unpickling failure, or a
  dictionary of entries keyed by the locations hash;
* methods that mutate `self` (`_insert_dummy_node` sets `self.dummy_id`)
  return an updated `Planner` record.
-/

/-- A grid coordinate `(row, column)`, as the integer pairs the source passes
to `skimage.graph.route_through_array`. -/
abbrev Coord : Type := Int × Int

/-- A path segment: the ordered coordinate sequence returned by the grid
search. -/
abbrev Seg : Type := List Coord

/-- A distance edge `(nodeA, nodeB, cost)` as the tuples the source keeps in
`inter_product_distances`.  Costs are modelled as integers: the source only
compares them with `0` and forwards them to the solver. -/
abbrev DistEdge : Type := Nat × Nat × Int

/-- The nested dictionary `inter_product_paths : {i : {j : path}}`, modelled
as an association list; lookups take the first matching key, matching the
unique-key invariant of a Python dict. -/
abbrev PathTable : Type := List (Nat × List (Nat × Seg))

/-- The Python exceptions the embedded code can raise. -/
inductive Err : Type
  /-- `ValueError` raised by `raise_if_out_of_bounds`. -/
  | outOfBounds (loc : Coord)
  /-- a failing `assert` statement. -/
  | assertionError
  /-- `KeyError` from a dictionary lookup with no fallback left. -/
  | keyError
  /-- `IndexError` from indexing a list out of range. -/
  | indexError
  /-- `pickle.load` failing with an exception other than `EOFError`. -/
  | unpicklingError
  /-- `ValueError` from `np.max` / `np.argmax` on an empty array. -/
  | emptyMax
  /-- `ValueError` from `list.index` when the element is absent. -/
  | valueError
deriving DecidableEq

/-- What `pickle.load` on the cache file would yield. -/
inductive PickleFile : Type
  /-- the file is empty or truncated so that `pickle.load` raises `EOFError`. -/
  | eofError
  /-- the file content is corrupted so that `pickle.load` raises some other
  exception (e.g. `pickle.UnpicklingError`). -/
  | otherError
  /-- a well-formed store: a dict from locations hash to
  `{product_distances, product_paths}`. -/
  | stored (data : List (String × (List DistEdge × PathTable)))
deriving DecidableEq

/-- The persisted cache artifact: `none` when `/tmp/path_cache.pickle` does not
exist, otherwise the behaviour of unpickling it. -/
abbrev CacheFile : Type := Option PickleFile

/-- Opaque stand-in for `skimage.graph.route_through_array(map, start, end,
fully_connected=True)`: given the cost map and two endpoints it yields
`(path, cost)`.  Modelled from the spec: the 8-connected weighted grid search
is an external library call the source never implements. -/
abbrev Router : Type := List (List Nat) → Coord → Coord → Seg × Int

/-- Opaque stand-in for the `mlrose` genetic TSP solver used by `_do_tsp`: it
receives the sorted distance list and returns `best_state`, a permutation of
the node indices `0 .. max_index`.  Modelled from the spec: the stochastic
solver is an external library call the source never implements. -/
abbrev Tsp : Type := List DistEdge → List Nat

/-- Modelled from the spec: the source reads `self.user_position_id` in
`_calculate_user_product_routes`, `_insert_dummy_node`,
`_map_to_selected_product_id_indices` and `get_path` but never assigns it;
spec §9 fixes the current-position sentinel index at `0`. -/
def user_position_id : Nat := 0

/-- `np.clip(255 - v, 1, 255)` applied to one 8-bit intensity value. -/
def clipCell (v : Nat) : Nat := min (max (255 - v) 1) 255

/-- The cost map built in `__init__`:
`np.clip(255 - skimage.io.imread(map_image_path), 1, 255)`. -/
def clipMap (image : List (List Nat)) : List (List Nat) :=
  image.map (List.map clipCell)

/-- `np.shape(self.map)` for a rectangular list-of-rows grid. -/
def mapShape (m : List (List Nat)) : Nat × Nat :=
  (m.length, (m.head?.getD []).length)

/-- The condition tested by `raise_if_out_of_bounds`:
`loc[0] >= bounds[0] or loc[1] >= bounds[1] or loc[0] < 0 or loc[1] < 0`. -/
def out_of_bounds (bounds : Nat × Nat) (loc : Coord) : Bool :=
  (bounds.1 : Int) ≤ loc.1 || (bounds.2 : Int) ≤ loc.2 || loc.1 < 0 || loc.2 < 0

/-- The engine state held on `self` by `Pathplanner.__init__`.  `dummy_id` is
the attribute `_insert_dummy_node` assigns during a query (initially `0` in
the model; the source leaves it unset until the first query). -/
structure Planner : Type where
  map : List (List Nat)
  product_locations : List Coord
  locations_hash : String
  num_products : Nat
  inter_product_distances : List DistEdge
  inter_product_paths : PathTable
  dummy_id : Nat
deriving DecidableEq

/-- Inner loop of `_calculate_inter_product_routes`: for a fixed
`loc_start` with 1-based index `iStart`, walk the remaining locations with
running 1-based index `iEnd`, bounds-checking each, running the grid search,
asserting `cost > 0`, and collecting `paths[iStart][iEnd]` and
`(iStart, iEnd, cost)`. -/
def interInner (router : Router) (m : List (List Nat)) (locStart : Coord)
    (iStart : Nat) : List Coord → Nat → Except Err (List (Nat × Seg) × List DistEdge)
  | [], _ => .ok ([], [])
  | locEnd :: rest, iEnd =>
    if out_of_bounds (mapShape m) locEnd then .error (.outOfBounds locEnd)
    else
      let pc := router m locStart locEnd
      if pc.2 ≤ 0 then .error .assertionError
      else do
        let pr ← interInner router m locStart iStart rest (iEnd + 1)
        .ok ((iEnd, pc.1) :: pr.1, (iStart, iEnd, pc.2) :: pr.2)

/-- Outer loop of `_calculate_inter_product_routes`: iterate over
`product_locations[:-1]` with 1-based index `iStart`, bounds-check the start,
and run the inner loop over the suffix `product_locations[iStart:]`. -/
def interOuter (router : Router) (m : List (List Nat)) :
    List Coord → Nat → Except Err (List DistEdge × PathTable)
  | [], _ => .ok ([], [])
  | [_], _ => .ok ([], [])
  | loc :: next :: rest, iStart =>
    if out_of_bounds (mapShape m) loc then .error (.outOfBounds loc)
    else do
      let pr ← interInner router m loc iStart (next :: rest) (iStart + 1)
      let pr2 ← interOuter router m (next :: rest) (iStart + 1)
      .ok (pr.2 ++ pr2.1, (iStart, pr.1) :: pr2.2)

/-- `_calculate_inter_product_routes`: all pairwise stop-to-stop searches,
1-based indices (`i_start += 1 # use 1-based indices to make space for
starting position!`). -/
def calc_inter_product_routes (router : Router) (m : List (List Nat))
    (locations : List Coord) : Except Err (List DistEdge × PathTable) :=
  interOuter router m locations 1

/-- `_load_distance_and_paths`: missing file and `EOFError` are cache misses;
any other unpickling failure propagates (the source catches only `EOFError`);
a well-formed store is probed for the locations hash. -/
def load_distance_and_paths (cache : CacheFile) (h : String) :
    Except Err (Option (List DistEdge × PathTable)) :=
  match cache with
  | none => .ok none
  | some .eofError => .ok none
  | some .otherError => .error .unpicklingError
  | some (.stored data) => .ok (data.lookup h)

/-- `_store_distance_and_paths`: re-read the store (missing file and
`EOFError` give an empty dict, other failures propagate), set
`data[locations_hash]`, and write the whole structure back. -/
def store_distance_and_paths (cache : CacheFile) (h : String)
    (dists : List DistEdge) (paths : PathTable) :
    Except Err (List (String × (List DistEdge × PathTable))) :=
  match cache with
  | none => .ok [(h, (dists, paths))]
  | some .eofError => .ok [(h, (dists, paths))]
  | some .otherError => .error .unpicklingError
  | some (.stored data) =>
    .ok ((h, (dists, paths)) :: data.filter (fun e => !(e.1 == h)))

/-- `Pathplanner.__init__`: build the cost map, hash the locations, try the
cache, and on a miss recompute all pairwise routes and write them back.
Returns the constructed planner together with the cache file after the
constructor ran. -/
def mkPlanner (router : Router) (hashFn : List Coord → String)
    (image : List (List Nat)) (locations : List Coord) (cache : CacheFile) :
    Except Err (Planner × CacheFile) := do
  let m := clipMap image
  let h := hashFn locations
  match ← load_distance_and_paths cache h with
  | some entry =>
    .ok ({ map := m, product_locations := locations, locations_hash := h,
           num_products := locations.length,
           inter_product_distances := entry.1, inter_product_paths := entry.2,
           dummy_id := 0 }, cache)
  | none => do
    let dp ← calc_inter_product_routes router m locations
    let newData ← store_distance_and_paths cache h dp.1 dp.2
    .ok ({ map := m, product_locations := locations, locations_hash := h,
           num_products := locations.length,
           inter_product_distances := dp.1, inter_product_paths := dp.2,
           dummy_id := 0 }, some (.stored newData))

/-- Loop body of `_calculate_user_product_routes`: for each product location
(1-based running index), run the grid search from the user position and
collect `paths[user][prod_id]` and `(user_position_id, prod_id, cost)`. -/
def userInner (router : Router) (m : List (List Nat)) (userLoc : Coord) :
    List Coord → Nat → List (Nat × Seg) × List DistEdge
  | [], _ => ([], [])
  | loc :: rest, i =>
    let pc := router m userLoc loc
    let pr := userInner router m userLoc rest (i + 1)
    ((i, pc.1) :: pr.1, (user_position_id, i, pc.2) :: pr.2)

/-- `_calculate_user_product_routes`: copy the precomputed tables and extend
the copies with fresh distances and paths from the user's current position to
every product.  Note the source performs no bounds check here. -/
def calc_user_product_routes (router : Router) (pl : Planner)
    (userLoc : Coord) : List DistEdge × PathTable :=
  let pr := userInner router pl.map userLoc pl.product_locations 1
  (pl.inter_product_distances ++ pr.2,
   (user_position_id, pr.1) :: pl.inter_product_paths)

/-- `_get_indices_in_dist`: the set of node indices occurring in a distance
list (modelled as a list; only membership is used). -/
def get_indices_in_dist (dists : List DistEdge) : List Nat :=
  dists.map (fun d => d.1) ++ dists.map (fun d => d.2.1)

/-- `_get_max_index_value_in_dists`: `np.max` of `max(a, b)` over the edges;
`none` models the `ValueError` on an empty list. -/
def get_max_index_value_in_dists (dists : List DistEdge) : Option Nat :=
  (dists.map (fun d => max d.1 d.2.1)).max?

/-- `_insert_dummy_node`: assert the end index occurs, set `self.dummy_id`
to the maximal index plus one and append the two cheap edges
`(user, dummy, 1)` and `(dummy, end_id, 1)`. -/
def insert_dummy_node (pl : Planner) (dists : List DistEdge) (end_id : Nat) :
    Except Err (Planner × List DistEdge) :=
  if end_id ∈ get_indices_in_dist dists then
    match get_max_index_value_in_dists dists with
    | none => .error .emptyMax
    | some m =>
      .ok ({ pl with dummy_id := m + 1 },
           dists ++ [(user_position_id, m + 1, 1), (m + 1, end_id, 1)])
  else .error .assertionError

/-- Stable insertion of an edge into a list sorted by source index: the edge
goes in front of the first element whose key is not smaller. -/
def insertSorted (e : DistEdge) : List DistEdge → List DistEdge
  | [] => [e]
  | x :: xs => if x.1 < e.1 then x :: insertSorted e xs else e :: x :: xs

/-- `dist_list.sort(key=lambda x: x[0])` — Python's stable sort by source
index, modelled as a stable insertion sort. -/
def sortByFirst : List DistEdge → List DistEdge
  | [] => []
  | e :: rest => insertSorted e (sortByFirst rest)

/-- `_do_tsp`: sort the distance list by source index (Python's stable sort),
compute `length = max_index + 1` (raising on an empty list), and run the
opaque solver. -/
def do_tsp (tsp : Tsp) (dist_list : List DistEdge) : Except Err (List Nat) :=
  match get_max_index_value_in_dists (sortByFirst dist_list) with
  | none => .error .emptyMax
  | some _ => .ok (tsp (sortByFirst dist_list))

/-- `_map_to_selected_product_id_indices`: assert the user node heads the
selected list, blank out the (first) maximal entry of the tour — the dummy
node — and map the remaining indices through `selected_product_ids`. -/
def map_to_selected_product_id_indices (spid : List Nat) (route : List Nat) :
    Except Err (List Nat) :=
  if spid.head? = some user_position_id then
    match route.max? with
    | none => .error .emptyMax
    | some m =>
      (route.erase m).mapM (fun j =>
        match spid.get? j with
        | some v => Except.ok v
        | none => Except.error Err.indexError)
  else .error .assertionError

/-- `_roll_route`: `np.roll` the route so `start_id` comes first; if the
second element is `end_id`, roll once more and `np.flip` so that `end_id`
lands at the end. -/
def roll_route (start_id end_id : Nat) (route : List Nat) :
    Except Err (List Nat) :=
  if start_id ∈ route then
    let r := route.rotate (route.indexOf start_id)
    match r.get? 1 with
    | none => .error .indexError
    | some x => .ok (if x = end_id then (r.rotate 1).reverse else r)
  else .error .valueError

/-- The `try/except KeyError` lookup of `_route_to_path`: take the stored
segment for `(a, b)`, falling back to the reversed segment stored for
`(b, a)`. -/
def lookup_segment (paths : PathTable) (a b : Nat) : Option Seg :=
  match (paths.lookup a).bind (fun inn => inn.lookup b) with
  | some p => some p
  | none => ((paths.lookup b).bind (fun inn => inn.lookup a)).map List.reverse

/-- Loop of `_route_to_path`: extend the accumulated path with each
consecutive segment; a lookup failing in both directions is the uncaught
`KeyError`. -/
def routeToPathGo (paths : PathTable) (start : Nat) :
    List Nat → Except Err (List Coord)
  | [] => .ok []
  | target :: rest =>
    match lookup_segment paths start target with
    | some p => do
      let tl ← routeToPathGo paths target rest
      .ok (p ++ tl)
    | none => .error .keyError

/-- `_route_to_path`: piece together the stored segments along a route;
`route[0]` on an empty route is the `IndexError`. -/
def route_to_path (paths : PathTable) (route : List Nat) :
    Except Err (List Coord) :=
  match route with
  | [] => .error .indexError
  | start :: rest => routeToPathGo paths start rest

/-- `_filter_dists`: keep the edges whose endpoints both lie in
`selected_product_ids` and renumber them by position in that list. -/
def filter_dists (spid : List Nat) : List DistEdge → List DistEdge
  | [] => []
  | (src, target, dist) :: rest =>
    if src ∈ spid ∧ target ∈ spid then
      (spid.indexOf src, spid.indexOf target, dist) :: filter_dists spid rest
    else filter_dists spid rest

/-- `get_path`: assert the end id is selected, convert it to its position in
the caller's list, shortcut the empty registry, prepend the user sentinel if
absent, compute the per-query distance graph, insert the dummy node, solve,
map back to product ids, roll, and stitch the path. -/
def get_path (router : Router) (tsp : Tsp) (pl : Planner) (user_loc : Coord)
    (selected_product_ids : List Nat) (end_at_id : Nat) :
    Except Err (Planner × (List Coord × List Nat)) :=
  if end_at_id ∈ selected_product_ids then
    let end_idx := selected_product_ids.indexOf end_at_id
    if pl.num_products = 0 then .ok (pl, ([], []))
    else
      let spid := if user_position_id ∈ selected_product_ids then
          selected_product_ids
        else user_position_id :: selected_product_ids
      let dp := calc_user_product_routes router pl user_loc
      let fd := filter_dists spid dp.1
      do
        let pf ← insert_dummy_node pl fd end_idx
        let route ← do_tsp tsp pf.2
        let route2 ← map_to_selected_product_id_indices spid route
        let rolled ← roll_route 0 end_idx route2
        let path ← route_to_path dp.2 rolled
        .ok (pf.1, (path, rolled))
  else .error .assertionError

/-! ## Concrete instances used by witnesses and counterexamples -/

/-- A concrete router: straight-line two-point path with cost `1`. -/
def demoRouter : Router := fun _ s e => ([s, e], 1)

/-- A concrete stand-in for `_get_hash_of_locations`. -/
def demoHash : List Coord → String := fun _ => "locs"

/-- A 2×2 uniform 8-bit intensity image. -/
def demoImage : List (List Nat) := [[100, 100], [100, 100]]

/-- Three registered stop locations (product ids 1, 2, 3). -/
def demoLocs : List Coord := [(0, 0), (0, 1), (1, 0)]

/-- The planner `__init__` builds from `demoImage`/`demoLocs` with no cache. -/
def demoPlanner : Planner :=
  { map := [[155, 155], [155, 155]],
    product_locations := [(0, 0), (0, 1), (1, 0)],
    locations_hash := "locs",
    num_products := 3,
    inter_product_distances := [(1, 2, 1), (1, 3, 1), (2, 3, 1)],
    inter_product_paths :=
      [(1, [(2, [(0, 0), (0, 1)]), (3, [(0, 0), (1, 0)])]),
       (2, [(3, [(0, 1), (1, 0)])])],
    dummy_id := 0 }

/-- A solver answer for the demo query: the tour `0 → 4 → 1 → 3 → 2 → 0`, a
permutation of the five node indices in which the dummy node `4` sits next to
both nodes it is cheaply wired to — the ideal outcome the dummy-node
reduction hopes for. -/
def demoTsp : Tsp := fun _ => [0, 4, 1, 3, 2]

/-- A solver that returns the identity permutation of the node indices. -/
def idTsp : Tsp :=
  fun d => List.range ((get_max_index_value_in_dists d).getD 0 + 1)

/-- A planner whose stop registry is empty. -/
def emptyPlanner : Planner :=
  { map := [], product_locations := [], locations_hash := "locs",
    num_products := 0, inter_product_distances := [],
    inter_product_paths := [], dummy_id := 0 }

/-- A two-segment path table: `1 → 2` and `2 → 3`, sharing the junction
coordinate `(0, 1)`. -/
def dupDemoPaths : PathTable :=
  [(1, [(2, [(0, 0), (0, 1)])]), (2, [(3, [(0, 1), (1, 1)])])]

/-! ## Shared helper lemmas -/

theorem except_bind_ok {α β : Type} {x : Except Err α} {f : α → Except Err β}
    {b : β} : x >>= f = .ok b ↔ ∃ a, x = .ok a ∧ f a = .ok b := by
  cases x <;> simp [Bind.bind, Except.bind]

theorem natMax?_eq_some {xs : List Nat} {m : Nat} :
    xs.max? = some m ↔ m ∈ xs ∧ ∀ b ∈ xs, b ≤ m :=
  List.max?_eq_some_iff (fun a => le_refl a) (fun a b => max_choice a b)
    (fun _ _ _ => max_le_iff)

theorem lookup_isSome_iff {β : Type} (l : List (Nat × β)) (k : Nat) :
    (l.lookup k).isSome ↔ k ∈ l.map Prod.fst := by
  induction l with
  | nil => simp [List.lookup]
  | cons a t ih =>
    obtain ⟨k1, b⟩ := a
    by_cases hk : k = k1
    · simp [List.lookup, hk]
    · have hbeq : (k == k1) = false := beq_eq_false_iff_ne.mpr hk
      simp [List.lookup, hbeq, ih, hk]

theorem range_map_getD (l : List Nat) :
    (List.range l.length).map (fun j => l.getD j 0) = l := by
  induction l with
  | nil => simp
  | cons a t ih =>
    rw [List.length_cons, List.range_succ_eq_map]
    simp only [List.map_cons, List.getD_cons_zero, List.map_map]
    have hfun : ((fun j => (a :: t).getD j 0) ∘ Nat.succ) =
        fun j => t.getD j 0 := by
      funext j
      simp [List.getD_cons_succ]
    rw [hfun, ih]

theorem insert_dummy_node_ok {pl : Planner} {dists : List DistEdge} {end_id : Nat}
    {pl2 : Planner} {out : List DistEdge}
    (h : insert_dummy_node pl dists end_id = .ok (pl2, out)) :
    ∃ m, end_id ∈ get_indices_in_dist dists ∧
      get_max_index_value_in_dists dists = some m ∧
      pl2 = { pl with dummy_id := m + 1 } ∧
      out = dists ++ [(user_position_id, m + 1, 1), (m + 1, end_id, 1)] := by
  unfold insert_dummy_node at h
  split at h
  · split at h
    · simp at h
    · rename_i m heq
      rw [Except.ok.injEq, Prod.mk.injEq] at h
      rename_i hmem _
      exact ⟨m, hmem, heq, h.1.symm, h.2.symm⟩
  · simp at h

theorem do_tsp_ok {tsp : Tsp} {dist_list : List DistEdge} {route0 : List Nat}
    (h : do_tsp tsp dist_list = .ok route0) :
    ∃ m, get_max_index_value_in_dists (sortByFirst dist_list) = some m ∧
      route0 = tsp (sortByFirst dist_list) := by
  unfold do_tsp at h
  split at h
  · simp at h
  · rename_i m heq
    rw [Except.ok.injEq] at h
    exact ⟨m, heq, h.symm⟩

theorem roll_route_ok {start_id end_id : Nat} {route out : List Nat}
    (h : roll_route start_id end_id route = .ok out) :
    start_id ∈ route ∧
    ∃ x, (route.rotate (route.indexOf start_id)).get? 1 = some x ∧
      out = (if x = end_id then
              ((route.rotate (route.indexOf start_id)).rotate 1).reverse
             else route.rotate (route.indexOf start_id)) := by
  unfold roll_route at h
  split at h
  · rename_i hmem
    simp only [] at h
    split at h
    · simp at h
    · rename_i x heq
      rw [Except.ok.injEq] at h
      exact ⟨hmem, x, heq, h.symm⟩
  · simp at h

theorem mapM_get_ok {spid : List Nat} : ∀ {l out : List Nat},
    l.mapM (fun j => match spid.get? j with
      | some v => Except.ok v
      | none => Except.error Err.indexError) = .ok out →
    out = l.map (fun j => spid.getD j 0) := by
  intro l
  induction l with
  | nil =>
    intro out h
    simp only [List.mapM_nil] at h
    rw [show (pure [] : Except Err (List Nat)) = .ok [] from rfl,
      Except.ok.injEq] at h
    simp [h.symm]
  | cons a t ih =>
    intro out h
    rw [List.mapM_cons] at h
    rcases except_bind_ok.mp h with ⟨b, hb, h⟩
    rcases except_bind_ok.mp h with ⟨bs, hbs, h⟩
    rw [show (pure (b :: bs) : Except Err (List Nat)) = .ok (b :: bs) from rfl,
      Except.ok.injEq] at h
    cases hga : spid.get? a with
    | none => rw [hga] at hb; simp at hb
    | some v =>
      rw [hga] at hb
      rw [Except.ok.injEq] at hb
      have hgd : spid.getD a 0 = v := by
        rw [List.getD_eq_getElem?_getD, ← List.get?_eq_getElem?, hga]
        rfl
      rw [← h, List.map_cons, ← ih hbs, ← hb, hgd]

theorem map_to_spid_ok {spid route route2 : List Nat}
    (h : map_to_selected_product_id_indices spid route = .ok route2) :
    spid.head? = some user_position_id ∧
    ∃ m, route.max? = some m ∧
      route2 = (route.erase m).map (fun j => spid.getD j 0) := by
  unfold map_to_selected_product_id_indices at h
  split at h
  · rename_i hhead
    split at h
    · simp at h
    · rename_i m hm
      exact ⟨hhead, m, hm, mapM_get_ok h⟩
  · simp at h

theorem get_path_ok_elim {router : Router} {tsp : Tsp} {pl : Planner} {u : Coord}
    {spid : List Nat} {endId : Nat} {pl2 : Planner} {p : List Coord}
    {route : List Nat}
    (h : get_path router tsp pl u spid endId = .ok (pl2, (p, route))) :
    endId ∈ spid ∧
    ((pl.num_products = 0 ∧ pl2 = pl ∧ p = [] ∧ route = []) ∨
     (pl.num_products ≠ 0 ∧
      ∃ m route0 route2,
        get_max_index_value_in_dists
          (filter_dists
            (if user_position_id ∈ spid then spid else user_position_id :: spid)
            (calc_user_product_routes router pl u).1) = some m ∧
        pl2 = { pl with dummy_id := m + 1 } ∧
        do_tsp tsp
          (filter_dists
            (if user_position_id ∈ spid then spid else user_position_id :: spid)
            (calc_user_product_routes router pl u).1 ++
            [(user_position_id, m + 1, 1), (m + 1, spid.indexOf endId, 1)]) =
          .ok route0 ∧
        map_to_selected_product_id_indices
          (if user_position_id ∈ spid then spid else user_position_id :: spid)
          route0 = .ok route2 ∧
        roll_route 0 (spid.indexOf endId) route2 = .ok route ∧
        route_to_path (calc_user_product_routes router pl u).2 route = .ok p)) := by
  unfold get_path at h
  split at h
  · rename_i hmem
    refine ⟨hmem, ?_⟩
    simp only [] at h
    split at h
    · rename_i hz
      left
      rw [Except.ok.injEq, Prod.mk.injEq, Prod.mk.injEq] at h
      exact ⟨hz, h.1.symm, h.2.1.symm, h.2.2.symm⟩
    · rename_i hz
      right
      refine ⟨hz, ?_⟩
      rcases except_bind_ok.mp h with ⟨pf, hins, h⟩
      rcases except_bind_ok.mp h with ⟨route0, htsp0, h⟩
      rcases except_bind_ok.mp h with ⟨route2, hmap, h⟩
      rcases except_bind_ok.mp h with ⟨rolled, hroll, h⟩
      rcases except_bind_ok.mp h with ⟨pth, hpath, h⟩
      rw [Except.ok.injEq, Prod.mk.injEq, Prod.mk.injEq] at h
      obtain ⟨h1, h2, h3⟩ := h
      rcases insert_dummy_node_ok hins with ⟨m, _, hmax, hpf1, hpf2⟩
      subst h1 h2 h3
      rw [hpf2] at htsp0
      exact ⟨m, route0, route2, hmax, hpf1, htsp0, hmap, hroll, hpath⟩
  · simp at h

theorem get_path_ok_state {router : Router} {tsp : Tsp} {pl : Planner}
    {u : Coord} {spid : List Nat} {endId : Nat} {pl2 : Planner}
    {out : List Coord × List Nat}
    (h : get_path router tsp pl u spid endId = .ok (pl2, out)) :
    pl2.map = pl.map ∧ pl2.product_locations = pl.product_locations ∧
    pl2.locations_hash = pl.locations_hash ∧
    pl2.num_products = pl.num_products ∧
    pl2.inter_product_distances = pl.inter_product_distances ∧
    pl2.inter_product_paths = pl.inter_product_paths := by
  have h' : get_path router tsp pl u spid endId = .ok (pl2, (out.1, out.2)) := h
  rcases (get_path_ok_elim h').2 with ⟨_, hpl, _, _⟩ | ⟨_, m, _, _, _, hpl, _⟩ <;>
    rw [hpl] <;> exact ⟨rfl, rfl, rfl, rfl, rfl, rfl⟩

/-! ## C8: empty stop registry -/

/-- **C8.** When the planner's stop registry is empty
(`self.num_products == 0`), `get_path` returns `([], [])` without raising,
for every query whose mandatory end id is among the requested stop ids. -/
theorem get_path_empty_registry (router : Router) (tsp : Tsp) (pl : Planner)
    (u : Coord) (spid : List Nat) (endId : Nat)
    (hend : endId ∈ spid) (hnum : pl.num_products = 0) :
    get_path router tsp pl u spid endId = .ok (pl, ([], [])) := by
  unfold get_path
  rw [if_pos hend]
  simp only [hnum, if_true]

theorem get_path_empty_registry_witness :
    ((5 : Nat) ∈ [5] ∧ emptyPlanner.num_products = 0) ∧
    get_path demoRouter demoTsp emptyPlanner (0, 0) [5] 5 =
      .ok (emptyPlanner, ([], [])) :=
  ⟨⟨by decide, by decide⟩,
   get_path_empty_registry demoRouter demoTsp emptyPlanner (0, 0) [5] 5
     (by decide) (by decide)⟩

/-! ## C10: a query leaves the precomputed state untouched -/

/-- **C10.** A successful `get_path` call leaves the planner's precomputed
inter-product distance list and path table (and the cost map and registry)
unchanged: the query works on copies, and the fresh current-position edges
and dummy edges are only added to those per-query copies.  The persisted
cache cannot be touched either: `get_path` never calls
`_store_distance_and_paths` (its embedding neither reads nor returns a
`CacheFile`). -/
theorem get_path_frame (router : Router) (tsp : Tsp) (pl : Planner)
    (u : Coord) (spid : List Nat) (endId : Nat) (pl2 : Planner)
    (out : List Coord × List Nat)
    (h : get_path router tsp pl u spid endId = .ok (pl2, out)) :
    pl2.inter_product_distances = pl.inter_product_distances ∧
    pl2.inter_product_paths = pl.inter_product_paths ∧
    pl2.map = pl.map ∧ pl2.product_locations = pl.product_locations := by
  obtain ⟨h1, h2, _, _, h5, h6⟩ := get_path_ok_state h
  exact ⟨h5, h6, h1, h2⟩

theorem get_path_frame_witness :
    (get_path demoRouter demoTsp demoPlanner (1, 1) [1, 2, 3] 2 =
      .ok ({ demoPlanner with dummy_id := 4 },
        ([(1, 1), (0, 1), (0, 1), (1, 0), (1, 0), (0, 0)], [0, 2, 3, 1]))) ∧
    (({ demoPlanner with dummy_id := 4 } : Planner).inter_product_distances =
        demoPlanner.inter_product_distances ∧
     ({ demoPlanner with dummy_id := 4 } : Planner).inter_product_paths =
        demoPlanner.inter_product_paths ∧
     ({ demoPlanner with dummy_id := 4 } : Planner).map = demoPlanner.map ∧
     ({ demoPlanner with dummy_id := 4 } : Planner).product_locations =
        demoPlanner.product_locations) :=
  ⟨by rfl,
   get_path_frame demoRouter demoTsp demoPlanner (1, 1) [1, 2, 3] 2
     { demoPlanner with dummy_id := 4 }
     ([(1, 1), (0, 1), (0, 1), (1, 0), (1, 0), (0, 0)], [0, 2, 3, 1])
     (by rfl)⟩

/-! ## C2: stitching consecutive segments -/

/-- **C2 (counterexample).** `_route_to_path` does **not** remove the
duplicated boundary coordinate: for the route `[1, 2, 3]` with stored
segments `1→2 = [(0,0), (0,1)]` and `2→3 = [(0,1), (1,1)]`, the produced
path repeats the junction `(0,1)`, so it differs from the segments
concatenated with the duplicated junction removed
(`[(0,0), (0,1), (1,1)]`). -/
theorem route_to_path_keeps_duplicate_junction :
    route_to_path dupDemoPaths [1, 2, 3] =
      .ok [(0, 0), (0, 1), (0, 1), (1, 1)] ∧
    ([(0, 0), (0, 1), (0, 1), (1, 1)] : List Coord) ≠
      [(0, 0), (0, 1), (1, 1)] :=
  ⟨by rfl, by decide⟩

/-- **C2 (amended).** The stitching of `_route_to_path` looks the stored
segment for `(a, b)` up, falling back to the reversed segment stored for
`(b, a)`, and concatenates the per-pair segments **without** removing the
duplicated boundary coordinate: for a route `[a, b, c]` the result is
`segment(a, b) ++ segment(b, c)` verbatim. -/
theorem route_to_path_stitch (paths : PathTable) (a b c : Nat) (sab sbc : Seg)
    (h1 : lookup_segment paths a b = some sab)
    (h2 : lookup_segment paths b c = some sbc) :
    route_to_path paths [a, b, c] = .ok (sab ++ sbc) ∧
    (∀ x y s, (paths.lookup x).bind (fun inn => inn.lookup y) = none →
      (paths.lookup y).bind (fun inn => inn.lookup x) = some s →
      lookup_segment paths x y = some s.reverse) := by
  constructor
  · show routeToPathGo paths a [b, c] = .ok (sab ++ sbc)
    unfold routeToPathGo
    rw [h1]
    unfold routeToPathGo
    rw [h2]
    unfold routeToPathGo
    simp [Bind.bind, Except.bind]
  · intro x y s hxy hyx
    unfold lookup_segment
    rw [hxy, hyx]
    rfl

theorem route_to_path_stitch_witness :
    (lookup_segment dupDemoPaths 1 2 = some [(0, 0), (0, 1)] ∧
     lookup_segment dupDemoPaths 2 3 = some [(0, 1), (1, 1)]) ∧
    (route_to_path dupDemoPaths [1, 2, 3] =
        .ok ([(0, 0), (0, 1)] ++ [(0, 1), (1, 1)]) ∧
     (∀ x y s,
        (dupDemoPaths.lookup x).bind (fun inn => inn.lookup y) = none →
        (dupDemoPaths.lookup y).bind (fun inn => inn.lookup x) = some s →
        lookup_segment dupDemoPaths x y = some s.reverse)) :=
  ⟨⟨by rfl, by rfl⟩,
   route_to_path_stitch dupDemoPaths 1 2 3 [(0, 0), (0, 1)] [(0, 1), (1, 1)]
     (by rfl) (by rfl)⟩

/-! ## C3: cache loading and the corruption fallback -/

/-- **C3 (counterexample).** A corrupted cache store whose unpickling fails
with anything other than `EOFError` is *not* treated as a cache miss:
`__init__` propagates the exception to the caller instead of recomputing
(`_load_distance_and_paths` catches only `EOFError`). -/
theorem mkPlanner_corrupted_cache_raises :
    mkPlanner demoRouter demoHash demoImage demoLocs (some .otherError) =
      .error .unpicklingError := by rfl

theorem mkPlanner_miss_store (router : Router)
    (hashFn : List Coord → String) (image : List (List Nat))
    (locs : List Coord) (cache : CacheFile) (dists : List DistEdge)
    (paths : PathTable)
    (hmiss : load_distance_and_paths cache (hashFn locs) = .ok none)
    (hcalc : calc_inter_product_routes router (clipMap image) locs =
      .ok (dists, paths)) :
    ∃ data, mkPlanner router hashFn image locs cache =
        .ok ({ map := clipMap image, product_locations := locs,
               locations_hash := hashFn locs, num_products := locs.length,
               inter_product_distances := dists, inter_product_paths := paths,
               dummy_id := 0 }, some (.stored data)) ∧
      data.lookup (hashFn locs) = some (dists, paths) := by
  cases cache with
  | none =>
    refine ⟨[(hashFn locs, (dists, paths))], ?_, ?_⟩
    · unfold mkPlanner
      simp [load_distance_and_paths, hcalc, store_distance_and_paths,
        Bind.bind, Except.bind]
    · simp [List.lookup]
  | some pf =>
    cases pf with
    | eofError =>
      refine ⟨[(hashFn locs, (dists, paths))], ?_, ?_⟩
      · unfold mkPlanner
        simp [load_distance_and_paths, hcalc, store_distance_and_paths,
          Bind.bind, Except.bind]
      · simp [List.lookup]
    | otherError => simp [load_distance_and_paths] at hmiss
    | stored data =>
      have hlk : data.lookup (hashFn locs) = none := by
        simpa [load_distance_and_paths] using hmiss
      refine ⟨(hashFn locs, (dists, paths)) ::
          data.filter (fun e => !(e.1 == hashFn locs)), ?_, ?_⟩
      · unfold mkPlanner
        simp [load_distance_and_paths, hlk, hcalc, store_distance_and_paths,
          Bind.bind, Except.bind]
      · simp [List.lookup]

/-- **C3 (amended).** For a missing store, an empty store (`EOFError`), or a
store without an entry for this stop-set hash, construction treats the load
as a cache miss, falls back to the full pairwise recomputation, and writes a
valid entry back under the locations hash; a store whose unpickling fails
with any exception other than `EOFError` instead propagates the error. -/
theorem mkPlanner_cache_miss_recomputes (router : Router)
    (hashFn : List Coord → String) (image : List (List Nat))
    (locs : List Coord) (cache : CacheFile) (dists : List DistEdge)
    (paths : PathTable)
    (hmiss : load_distance_and_paths cache (hashFn locs) = .ok none)
    (hcalc : calc_inter_product_routes router (clipMap image) locs =
      .ok (dists, paths)) :
    ∃ data, mkPlanner router hashFn image locs cache =
        .ok ({ map := clipMap image, product_locations := locs,
               locations_hash := hashFn locs, num_products := locs.length,
               inter_product_distances := dists, inter_product_paths := paths,
               dummy_id := 0 }, some (.stored data)) ∧
      data.lookup (hashFn locs) = some (dists, paths) :=
  mkPlanner_miss_store router hashFn image locs cache dists paths hmiss hcalc

theorem mkPlanner_cache_miss_recomputes_witness :
    (load_distance_and_paths none (demoHash demoLocs) = .ok none ∧
     calc_inter_product_routes demoRouter (clipMap demoImage) demoLocs =
       .ok (demoPlanner.inter_product_distances,
            demoPlanner.inter_product_paths)) ∧
    (∃ data, mkPlanner demoRouter demoHash demoImage demoLocs none =
        .ok ({ map := clipMap demoImage, product_locations := demoLocs,
               locations_hash := demoHash demoLocs,
               num_products := demoLocs.length,
               inter_product_distances := demoPlanner.inter_product_distances,
               inter_product_paths := demoPlanner.inter_product_paths,
               dummy_id := 0 }, some (.stored data)) ∧
      data.lookup (demoHash demoLocs) =
        some (demoPlanner.inter_product_distances,
              demoPlanner.inter_product_paths)) :=
  ⟨⟨by rfl, by rfl⟩,
   mkPlanner_cache_miss_recomputes demoRouter demoHash demoImage demoLocs none
     demoPlanner.inter_product_distances demoPlanner.inter_product_paths
     (by rfl) (by rfl)⟩

/-! ## C5: out-of-bounds validation -/

theorem interInner_ok_bounds {router : Router} {m : List (List Nat)}
    {ls : Coord} {i0 : Nat} :
    ∀ {rest : List Coord} {j0 : Nat} {r},
      interInner router m ls i0 rest j0 = .ok r →
      ∀ loc ∈ rest, out_of_bounds (mapShape m) loc = false := by
  intro rest
  induction rest with
  | nil =>
    intro j0 r _ loc hloc
    simp at hloc
  | cons a as ih =>
    intro j0 r h loc hloc
    unfold interInner at h
    split at h
    · simp at h
    · rename_i hbound
      simp only [] at h
      split at h
      · simp at h
      · rcases except_bind_ok.mp h with ⟨pr, hpr, _⟩
        rcases List.mem_cons.mp hloc with h1 | h2
        · subst h1
          simpa using hbound
        · exact ih hpr loc h2

/-- **C5 (counterexample).** The per-query search from the caller's current
position performs no bounds validation: with the user position `(10, 10)`
far outside the 2×2 demo grid, `_calculate_user_product_routes` still
returns a full edge list and path table instead of failing with an
out-of-bounds error. -/
theorem calc_user_skips_bounds_check :
    out_of_bounds (mapShape demoPlanner.map) (10, 10) = true ∧
    calc_user_product_routes demoRouter demoPlanner (10, 10) =
      ([(1, 2, 1), (1, 3, 1), (2, 3, 1), (0, 1, 1), (0, 2, 1), (0, 3, 1)],
       [(0, [(1, [(10, 10), (0, 0)]), (2, [(10, 10), (0, 1)]),
             (3, [(10, 10), (1, 0)])]),
        (1, [(2, [(0, 0), (0, 1)]), (3, [(0, 0), (1, 0)])]),
        (2, [(3, [(0, 1), (1, 0)])])]) :=
  ⟨by decide, by rfl⟩

/-- **C5 (amended).** Only the pairwise precomputation validates
coordinates: whenever `_calculate_inter_product_routes` succeeds on at least
two stops, every stop location was checked to be inside the grid (an
out-of-bounds location makes it fail with the out-of-bounds `ValueError`
before returning).  The per-query search from the current position performs
no such check (see the counterexample). -/
theorem calc_inter_validates_bounds (router : Router) (m : List (List Nat))
    (locs : List Coord) (res : List DistEdge × PathTable)
    (hlen : 2 ≤ locs.length)
    (h : calc_inter_product_routes router m locs = .ok res) :
    ∀ loc ∈ locs, out_of_bounds (mapShape m) loc = false := by
  cases locs with
  | nil => simp at hlen
  | cons a t =>
    cases t with
    | nil => simp at hlen
    | cons b rest =>
      unfold calc_inter_product_routes interOuter at h
      split at h
      · simp at h
      · rename_i hb
        rcases except_bind_ok.mp h with ⟨pr, hpr, _⟩
        intro loc hloc
        rcases List.mem_cons.mp hloc with h1 | h2
        · subst h1
          simpa using hb
        · exact interInner_ok_bounds hpr loc h2

theorem calc_inter_validates_bounds_witness :
    (2 ≤ demoLocs.length ∧
     calc_inter_product_routes demoRouter (clipMap demoImage) demoLocs =
       .ok (demoPlanner.inter_product_distances,
            demoPlanner.inter_product_paths)) ∧
    (∀ loc ∈ demoLocs,
      out_of_bounds (mapShape (clipMap demoImage)) loc = false) :=
  ⟨⟨by decide, by rfl⟩,
   calc_inter_validates_bounds demoRouter (clipMap demoImage) demoLocs
     (demoPlanner.inter_product_distances, demoPlanner.inter_product_paths)
     (by decide) (by rfl)⟩

/-! ## C9: the cost grid -/

theorem mkPlanner_ok_fields {router : Router} {hashFn : List Coord → String}
    {image : List (List Nat)} {locs : List Coord} {cache : CacheFile}
    {pl : Planner} {c2 : CacheFile}
    (h : mkPlanner router hashFn image locs cache = .ok (pl, c2)) :
    pl.map = clipMap image ∧ pl.product_locations = locs ∧
    pl.num_products = locs.length ∧ pl.locations_hash = hashFn locs := by
  unfold mkPlanner at h
  rcases except_bind_ok.mp h with ⟨o, hload, h⟩
  cases o with
  | some entry =>
    rw [Except.ok.injEq, Prod.mk.injEq] at h
    rw [← h.1]
    exact ⟨rfl, rfl, rfl, rfl⟩
  | none =>
    rcases except_bind_ok.mp h with ⟨dp, hdp, h⟩
    rcases except_bind_ok.mp h with ⟨nd, hnd, h⟩
    rw [Except.ok.injEq, Prod.mk.injEq] at h
    rw [← h.1]
    exact ⟨rfl, rfl, rfl, rfl⟩

/-- **C9.** The cost grid built at construction is
`np.clip(255 - image, 1, 255)` cell by cell; on 8-bit input (`v ≤ 255`) a
cell equals the mathematical clamp `min (max (255 − v) 1) 255` over the
integers, so brighter pixels get lower cost; every cell lies in `[1, 255]`;
and the grid is never mutated afterwards: a successful query returns a
planner with the identical grid. -/
theorem cost_grid_spec (router : Router) (hashFn : List Coord → String)
    (image : List (List Nat)) (locs : List Coord) (cache : CacheFile)
    (pl : Planner) (c2 : CacheFile)
    (h : mkPlanner router hashFn image locs cache = .ok (pl, c2)) :
    pl.map = image.map (List.map clipCell) ∧
    (∀ v : Nat, v ≤ 255 →
      (clipCell v : Int) = min (max (255 - (v : Int)) 1) 255) ∧
    (∀ row ∈ pl.map, ∀ v ∈ row, 1 ≤ v ∧ v ≤ 255) ∧
    (∀ (router2 : Router) (tsp : Tsp) (u : Coord) (spid : List Nat)
      (endId : Nat) (pl2 : Planner) (out : List Coord × List Nat),
      get_path router2 tsp pl u spid endId = .ok (pl2, out) →
      pl2.map = pl.map) := by
  have hmap : pl.map = clipMap image := (mkPlanner_ok_fields h).1
  refine ⟨hmap, ?_, ?_, ?_⟩
  · intro v hv
    unfold clipCell
    push_cast [hv]
    rfl
  · intro row hrow v hv
    rw [hmap] at hrow
    rcases List.mem_map.mp hrow with ⟨r, _, hr⟩
    subst hr
    rcases List.mem_map.mp hv with ⟨x, _, hx⟩
    subst hx
    unfold clipCell
    omega
  · intro router2 tsp u spid endId pl2 out hq
    exact (get_path_ok_state hq).1

theorem cost_grid_spec_witness :
    (mkPlanner demoRouter demoHash demoImage demoLocs none =
      .ok (demoPlanner,
        some (.stored [("locs",
          (demoPlanner.inter_product_distances,
           demoPlanner.inter_product_paths))]))) ∧
    (demoPlanner.map = demoImage.map (List.map clipCell) ∧
     (∀ v : Nat, v ≤ 255 →
       (clipCell v : Int) = min (max (255 - (v : Int)) 1) 255) ∧
     (∀ row ∈ demoPlanner.map, ∀ v ∈ row, 1 ≤ v ∧ v ≤ 255) ∧
     (∀ (router2 : Router) (tsp : Tsp) (u : Coord) (spid : List Nat)
       (endId : Nat) (pl2 : Planner) (out : List Coord × List Nat),
       get_path router2 tsp demoPlanner u spid endId = .ok (pl2, out) →
       pl2.map = demoPlanner.map)) :=
  ⟨by rfl,
   cost_grid_spec demoRouter demoHash demoImage demoLocs none demoPlanner
     (some (.stored [("locs",
       (demoPlanner.inter_product_distances,
        demoPlanner.inter_product_paths))])) (by rfl)⟩

/-! ## C7: the pairwise precomputation -/
theorem interInner_ok_shape {router : Router} {m : List (List Nat)}
    {ls : Coord} {i0 : Nat} :
    ∀ {rest : List Coord} {j0 : Nat} {ips : List (Nat × Seg)}
      {ies : List DistEdge},
      interInner router m ls i0 rest j0 = .ok (ips, ies) →
      ips.map Prod.fst = List.range' j0 rest.length ∧
      ies.map (fun e => (e.1, e.2.1)) =
        (List.range' j0 rest.length).map (fun t => (i0, t)) := by
  intro rest
  induction rest with
  | nil =>
    intro j0 ips ies h
    unfold interInner at h
    rw [Except.ok.injEq, Prod.mk.injEq] at h
    rw [← h.1, ← h.2]
    simp
  | cons a as ih =>
    intro j0 ips ies h
    unfold interInner at h
    split at h
    · simp at h
    · simp only [] at h
      split at h
      · simp at h
      · rcases except_bind_ok.mp h with ⟨pr, hpr, h⟩
        rw [Except.ok.injEq, Prod.mk.injEq] at h
        obtain ⟨hsh1, hsh2⟩ := ih hpr
        rw [← h.1, ← h.2]
        simp [List.range'_succ, hsh1, hsh2]

def pairsFrom (i0 : Nat) : Nat → List (Nat × Nat)
  | 0 => []
  | n + 1 => (List.range' (i0 + 1) n).map (fun t => (i0, t)) ++
      pairsFrom (i0 + 1) n

theorem pairsFrom_mem (a b : Nat) : ∀ (n : Nat) (i0 : Nat),
    (a, b) ∈ pairsFrom i0 n ↔ i0 ≤ a ∧ a < b ∧ b < i0 + n := by
  intro n
  induction n with
  | zero =>
    intro i0
    simp [pairsFrom]
    omega
  | succ n ih =>
    intro i0
    rw [pairsFrom]
    simp only [List.mem_append, List.mem_map, List.mem_range'_1, ih]
    constructor
    · rintro (⟨t, ht, heq⟩ | hr)
      · rw [Prod.mk.injEq] at heq
        omega
      · omega
    · intro hc
      by_cases ha : a = i0
      · left
        exact ⟨b, by omega, by rw [ha]⟩
      · right
        omega

theorem pairsFrom_length : ∀ (n : Nat) (i0 : Nat),
    2 * (pairsFrom i0 n).length = n * (n - 1) := by
  intro n
  induction n with
  | zero => intro i0; rfl
  | succ n ih =>
    intro i0
    have h := ih (i0 + 1)
    simp only [pairsFrom, List.length_append, List.length_map,
      List.length_range']
    cases n with
    | zero => rfl
    | succ m =>
      simp only [Nat.succ_sub_one] at h ⊢
      calc 2 * (m + 1 + (pairsFrom (i0 + 1) (m + 1)).length)
          = 2 * (m + 1) + 2 * (pairsFrom (i0 + 1) (m + 1)).length := by ring
        _ = 2 * (m + 1) + (m + 1) * m := by rw [h]
        _ = (m + 1 + 1) * (m + 1) := by ring

theorem pairsFrom_nodup : ∀ (n : Nat) (i0 : Nat), (pairsFrom i0 n).Nodup := by
  intro n
  induction n with
  | zero => intro i0; exact List.nodup_nil
  | succ n ih =>
    intro i0
    rw [pairsFrom]
    apply List.Nodup.append
    · refine List.Nodup.map ?_ (List.nodup_range' _ _)
      intro x y hxy
      rw [Prod.mk.injEq] at hxy
      exact hxy.2
    · exact ih (i0 + 1)
    · intro p hp1 hp2
      rcases List.mem_map.mp hp1 with ⟨t, _, hpt⟩
      subst hpt
      have hm := (pairsFrom_mem i0 t n (i0 + 1)).mp hp2
      omega

theorem interOuter_ok_pairs {router : Router} {m : List (List Nat)} :
    ∀ {L : List Coord} {i0 : Nat} {es : List DistEdge} {ps : PathTable},
      interOuter router m L i0 = .ok (es, ps) →
      es.map (fun e => (e.1, e.2.1)) = pairsFrom i0 L.length := by
  intro L
  induction L with
  | nil =>
    intro i0 es ps h
    unfold interOuter at h
    rw [Except.ok.injEq, Prod.mk.injEq] at h
    rw [← h.1]
    rfl
  | cons a t ih =>
    intro i0 es ps h
    cases t with
    | nil =>
      unfold interOuter at h
      rw [Except.ok.injEq, Prod.mk.injEq] at h
      rw [← h.1]
      rfl
    | cons b rest =>
      unfold interOuter at h
      split at h
      · simp at h
      · rcases except_bind_ok.mp h with ⟨pr, hpr, h⟩
        rcases except_bind_ok.mp h with ⟨pr2, hpr2, h⟩
        rw [Except.ok.injEq, Prod.mk.injEq] at h
        obtain ⟨_, hsh⟩ :=
          interInner_ok_shape hpr
        have hout := ih hpr2
        rw [← h.1]
        rw [List.map_append, hsh, hout]
        rfl

theorem interOuter_ok_lookup {router : Router} {m : List (List Nat)} :
    ∀ {L : List Coord} {i0 : Nat} {es : List DistEdge} {ps : PathTable},
      interOuter router m L i0 = .ok (es, ps) →
      ∀ a b, ((ps.lookup a).bind (fun inn => inn.lookup b)).isSome ↔
        (i0 ≤ a ∧ a < b ∧ b < i0 + L.length) := by
  intro L
  induction L with
  | nil =>
    intro i0 es ps h a b
    unfold interOuter at h
    rw [Except.ok.injEq, Prod.mk.injEq] at h
    rw [← h.2]
    simp [List.lookup]
    omega
  | cons x t ih =>
    intro i0 es ps h a b
    cases t with
    | nil =>
      unfold interOuter at h
      rw [Except.ok.injEq, Prod.mk.injEq] at h
      rw [← h.2]
      simp [List.lookup]
      omega
    | cons y rest =>
      unfold interOuter at h
      split at h
      · simp at h
      · rcases except_bind_ok.mp h with ⟨pr, hpr, h⟩
        rcases except_bind_ok.mp h with ⟨pr2, hpr2, h⟩
        rw [Except.ok.injEq, Prod.mk.injEq] at h
        obtain ⟨hkeys, _⟩ :=
          interInner_ok_shape hpr
        have hrec := ih hpr2 a b
        rw [← h.2]
        by_cases ha : a = i0
        · subst ha
          simp only [List.lookup, beq_self_eq_true, Option.some_bind]
          rw [lookup_isSome_iff, hkeys, List.mem_range'_1]
          simp only [List.length_cons]
          omega
        · have hbeq : (a == i0) = false := beq_eq_false_iff_ne.mpr ha
          simp only [List.lookup, hbeq]
          rw [hrec]
          simp only [List.length_cons]
          omega

/-- **C7.** On success, the pairwise precomputation for `N` registered stops
produces exactly `N(N-1)/2` distance edges (one grid search per unordered
pair), each unordered pair `i < j` of 1-based stop indices appears exactly
once in the edge list, and a stored path segment exists precisely for the
pairs keyed with the lower index first — segments are stored under exactly
one direction. -/
theorem calc_inter_pairwise (router : Router) (m : List (List Nat))
    (locs : List Coord) (dists : List DistEdge) (paths : PathTable)
    (h : calc_inter_product_routes router m locs = .ok (dists, paths)) :
    2 * dists.length = locs.length * (locs.length - 1) ∧
    (∀ a b, (∃ c, (a, b, c) ∈ dists) ↔ (1 ≤ a ∧ a < b ∧ b ≤ locs.length)) ∧
    (dists.map (fun e => (e.1, e.2.1))).Nodup ∧
    (∀ a b, ((paths.lookup a).bind (fun inn => inn.lookup b)).isSome ↔
      (1 ≤ a ∧ a < b ∧ b ≤ locs.length)) := by
  have hpairs := interOuter_ok_pairs h
  refine ⟨?_, ?_, ?_, ?_⟩
  · have hlen : dists.length = (pairsFrom 1 locs.length).length := by
      rw [← hpairs]
      simp
    rw [hlen]
    exact pairsFrom_length locs.length 1
  · intro a b
    have hmem : (a, b) ∈ dists.map (fun e => (e.1, e.2.1)) ↔
        ∃ c, (a, b, c) ∈ dists := by
      constructor
      · intro hm
        rcases List.mem_map.mp hm with ⟨⟨e1, e2, e3⟩, he, heq⟩
        simp only [Prod.mk.injEq] at heq
        exact ⟨e3, by rw [heq.1, heq.2] at he; exact he⟩
      · rintro ⟨c, hc⟩
        exact List.mem_map.mpr ⟨(a, b, c), hc, rfl⟩
    rw [← hmem, hpairs, pairsFrom_mem]
    omega
  · rw [hpairs]
    exact pairsFrom_nodup _ _
  · intro a b
    rw [interOuter_ok_lookup h a b]
    omega

theorem calc_inter_pairwise_witness :
    (calc_inter_product_routes demoRouter (clipMap demoImage) demoLocs =
      .ok (demoPlanner.inter_product_distances,
           demoPlanner.inter_product_paths)) ∧
    (2 * demoPlanner.inter_product_distances.length =
        demoLocs.length * (demoLocs.length - 1) ∧
     (∀ a b, (∃ c, (a, b, c) ∈ demoPlanner.inter_product_distances) ↔
        (1 ≤ a ∧ a < b ∧ b ≤ demoLocs.length)) ∧
     (demoPlanner.inter_product_distances.map (fun e => (e.1, e.2.1))).Nodup ∧
     (∀ a b, ((demoPlanner.inter_product_paths.lookup a).bind
        (fun inn => inn.lookup b)).isSome ↔
        (1 ≤ a ∧ a < b ∧ b ≤ demoLocs.length))) :=
  ⟨by rfl,
   calc_inter_pairwise demoRouter (clipMap demoImage) demoLocs
     demoPlanner.inter_product_distances demoPlanner.inter_product_paths
     (by rfl)⟩

/-! ## C4: the current-position sentinel and the cache -/

theorem userInner_snd {router : Router} {m : List (List Nat)} {u : Coord} :
    ∀ (locs : List Coord) (j0 : Nat),
    (userInner router m u locs j0).2 =
      ((List.range' j0 locs.length).zip locs).map
        (fun q => (user_position_id, q.1, (router m u q.2).2)) := by
  intro locs
  induction locs with
  | nil => intro j0; rfl
  | cons a t ih =>
    intro j0
    simp only [userInner, List.length_cons, List.range'_succ,
      List.zip_cons_cons, List.map_cons, ih (j0 + 1)]

theorem userInner_mem_edge {router : Router} {m : List (List Nat)}
    {u : Coord} : ∀ (locs : List Coord) (j0 k : Nat),
    j0 ≤ k → k < j0 + locs.length →
    ∃ c, (user_position_id, k, c) ∈ (userInner router m u locs j0).2 := by
  intro locs
  induction locs with
  | nil =>
    intro j0 k h1 h2
    simp only [List.length_nil, Nat.add_zero] at h2
    omega
  | cons a t ih =>
    intro j0 k h1 h2
    by_cases hk : k = j0
    · refine ⟨(router m u a).2, ?_⟩
      rw [hk]
      simp [userInner]
    · have h2' : k < (j0 + 1) + t.length := by
        simp only [List.length_cons] at h2
        omega
      rcases ih (j0 + 1) k (by omega) h2' with ⟨c, hc⟩
      exact ⟨c, List.mem_cons_of_mem _ hc⟩

theorem interOuter_ok_entries {router : Router} {m : List (List Nat)} :
    ∀ {L : List Coord} {i0 : Nat} {es : List DistEdge} {ps : PathTable},
      interOuter router m L i0 = .ok (es, ps) →
      ∀ kv ∈ ps, i0 ≤ kv.1 ∧ ∀ s ∈ kv.2, kv.1 < s.1 := by
  intro L
  induction L with
  | nil =>
    intro i0 es ps h kv hkv
    unfold interOuter at h
    rw [Except.ok.injEq, Prod.mk.injEq] at h
    rw [← h.2] at hkv
    simp at hkv
  | cons x t ih =>
    intro i0 es ps h kv hkv
    cases t with
    | nil =>
      unfold interOuter at h
      rw [Except.ok.injEq, Prod.mk.injEq] at h
      rw [← h.2] at hkv
      simp at hkv
    | cons y rest =>
      unfold interOuter at h
      split at h
      · simp at h
      · rcases except_bind_ok.mp h with ⟨pr, hpr, h⟩
        rcases except_bind_ok.mp h with ⟨pr2, hpr2, h⟩
        rw [Except.ok.injEq, Prod.mk.injEq] at h
        rw [← h.2] at hkv
        obtain ⟨hkeys, _⟩ :=
          interInner_ok_shape hpr
        rcases List.mem_cons.mp hkv with h1 | h1
        · subst h1
          refine ⟨le_refl _, ?_⟩
          intro s hs
          have : s.1 ∈ pr.1.map Prod.fst := List.mem_map_of_mem _ hs
          rw [hkeys, List.mem_range'_1] at this
          omega
        · obtain ⟨ha, hb⟩ := ih hpr2 kv h1
          exact ⟨by omega, hb⟩

/-- **C4.** Node index `0` is the current-position sentinel (modelled from
the spec, since the source never assigns `user_position_id`; §9 fixes it at
`0`).  The pairwise precomputation assigns regular stops 1-based indices:
every edge it produces joins indices `1 ≤ a < b`, and every stored path
segment sits under keys `1 ≤ i < j` — so the entry written back to the
persisted cache on a miss never mentions node `0`.  Each query recomputes
the current-position edges fresh: the per-query distance list is exactly the
precomputed list plus one router call per registered stop from the caller's
current position, appended only to the per-query copy. -/
theorem sentinel_node_zero_invariant :
    user_position_id = 0 ∧
    (∀ (router : Router) (m : List (List Nat)) (locs : List Coord)
       (dists : List DistEdge) (paths : PathTable),
       calc_inter_product_routes router m locs = .ok (dists, paths) →
       (∀ e ∈ dists, 1 ≤ e.1 ∧ e.1 < e.2.1) ∧
       (∀ kv ∈ paths, 1 ≤ kv.1 ∧ ∀ s ∈ kv.2, kv.1 < s.1)) ∧
    (∀ (router : Router) (hashFn : List Coord → String)
       (image : List (List Nat)) (locs : List Coord) (cache : CacheFile)
       (dists : List DistEdge) (paths : PathTable),
       load_distance_and_paths cache (hashFn locs) = .ok none →
       calc_inter_product_routes router (clipMap image) locs =
         .ok (dists, paths) →
       ∃ data, mkPlanner router hashFn image locs cache =
           .ok ({ map := clipMap image, product_locations := locs,
                  locations_hash := hashFn locs, num_products := locs.length,
                  inter_product_distances := dists,
                  inter_product_paths := paths, dummy_id := 0 },
             some (.stored data)) ∧
         data.lookup (hashFn locs) = some (dists, paths) ∧
         (∀ e ∈ dists, 1 ≤ e.1 ∧ 1 ≤ e.2.1) ∧
         (∀ kv ∈ paths, 1 ≤ kv.1 ∧ ∀ s ∈ kv.2, 1 ≤ s.1)) ∧
    (∀ (router : Router) (pl : Planner) (u : Coord),
       (calc_user_product_routes router pl u).1 =
         pl.inter_product_distances ++
           ((List.range' 1 pl.product_locations.length).zip
             pl.product_locations).map
             (fun q => (user_position_id, q.1, (router pl.map u q.2).2))) := by
  have hcore : ∀ (router : Router) (m : List (List Nat)) (locs : List Coord)
      (dists : List DistEdge) (paths : PathTable),
      calc_inter_product_routes router m locs = .ok (dists, paths) →
      (∀ e ∈ dists, 1 ≤ e.1 ∧ e.1 < e.2.1) ∧
      (∀ kv ∈ paths, 1 ≤ kv.1 ∧ ∀ s ∈ kv.2, kv.1 < s.1) := by
    intro router m locs dists paths h
    constructor
    · intro e he
      have hpair : (e.1, e.2.1) ∈ dists.map (fun e => (e.1, e.2.1)) :=
        List.mem_map_of_mem _ he
      rw [interOuter_ok_pairs h, pairsFrom_mem] at hpair
      omega
    · exact interOuter_ok_entries h
  refine ⟨rfl, hcore, ?_, ?_⟩
  · intro router hashFn image locs cache dists paths hmiss hcalc
    rcases mkPlanner_miss_store router hashFn image locs cache dists paths
      hmiss hcalc with ⟨data, hmk, hlk⟩
    obtain ⟨he, hp⟩ := hcore router (clipMap image) locs dists paths hcalc
    refine ⟨data, hmk, hlk, ?_, ?_⟩
    · intro e hin
      have h1 := he e hin
      omega
    · intro kv hin
      have h1 := hp kv hin
      refine ⟨h1.1, ?_⟩
      intro s hs
      have h2 := h1.2 s hs
      omega
  · intro router pl u
    show pl.inter_product_distances ++
        (userInner router pl.map u pl.product_locations 1).2 = _
    rw [userInner_snd]

theorem sentinel_node_zero_invariant_witness :
    (calc_inter_product_routes demoRouter (clipMap demoImage) demoLocs =
       .ok (demoPlanner.inter_product_distances,
            demoPlanner.inter_product_paths)) ∧
    ((∀ e ∈ demoPlanner.inter_product_distances, 1 ≤ e.1 ∧ e.1 < e.2.1) ∧
     (∀ kv ∈ demoPlanner.inter_product_paths,
        1 ≤ kv.1 ∧ ∀ s ∈ kv.2, kv.1 < s.1)) :=
  ⟨by rfl,
   sentinel_node_zero_invariant.2.1 demoRouter (clipMap demoImage) demoLocs
     demoPlanner.inter_product_distances demoPlanner.inter_product_paths
     (by rfl)⟩
theorem filter_dists_bounds {spid : List Nat} :
    ∀ {d : List DistEdge} {e : DistEdge}, e ∈ filter_dists spid d →
      e.1 < spid.length ∧ e.2.1 < spid.length := by
  intro d
  induction d with
  | nil =>
    intro e he
    simp [filter_dists] at he
  | cons x t ih =>
    intro e he
    obtain ⟨src, target, dist⟩ := x
    unfold filter_dists at he
    split at he
    · rename_i hcond
      rcases List.mem_cons.mp he with h1 | h2
      · subst h1
        exact ⟨List.indexOf_lt_length.mpr hcond.1,
          List.indexOf_lt_length.mpr hcond.2⟩
      · exact ih h2
    · exact ih he

theorem filter_dists_mem {spid : List Nat} {a b : Nat} {c : Int} :
    ∀ {d : List DistEdge}, (a, b, c) ∈ d → a ∈ spid → b ∈ spid →
      (spid.indexOf a, spid.indexOf b, c) ∈ filter_dists spid d := by
  intro d
  induction d with
  | nil =>
    intro h _ _
    simp at h
  | cons x t ih =>
    intro hmem ha hb
    obtain ⟨src, target, dist⟩ := x
    rcases List.mem_cons.mp hmem with h1 | h2
    · rw [Prod.mk.injEq, Prod.mk.injEq] at h1
      obtain ⟨r1, r2, r3⟩ := h1
      subst r1 r2 r3
      unfold filter_dists
      rw [if_pos ⟨ha, hb⟩]
      exact List.mem_cons_self _ _
    · unfold filter_dists
      split
      · exact List.mem_cons_of_mem _ (ih h2 ha hb)
      · exact ih h2 ha hb

theorem insertSorted_perm (e : DistEdge) :
    ∀ (l : List DistEdge), (insertSorted e l).Perm (e :: l) := by
  intro l
  induction l with
  | nil => exact List.Perm.refl _
  | cons x t ih =>
    unfold insertSorted
    split
    · exact (ih.cons x).trans (List.Perm.swap e x t)
    · exact List.Perm.refl _

theorem sortByFirst_perm : ∀ (l : List DistEdge), (sortByFirst l).Perm l := by
  intro l
  induction l with
  | nil => exact List.Perm.refl _
  | cons e t ih => exact (insertSorted_perm e _).trans (ih.cons e)

theorem natMax?_congr_perm {l1 l2 : List Nat} (h : l1.Perm l2) :
    l1.max? = l2.max? := by
  cases h2 : l2.max? with
  | some m =>
    rw [natMax?_eq_some] at h2 ⊢
    exact ⟨h.mem_iff.mpr h2.1, fun b hb => h2.2 b (h.mem_iff.mp hb)⟩
  | none =>
    rw [List.max?_eq_none_iff] at h2 ⊢
    subst h2
    exact h.eq_nil

theorem perm_range_max? {l : List Nat} {n : Nat}
    (h : l.Perm (List.range (n + 1))) : l.max? = some n := by
  rw [natMax?_eq_some]
  constructor
  · exact h.mem_iff.mpr (by simp [List.mem_range])
  · intro b hb
    have hb2 := h.mem_iff.mp hb
    simp only [List.mem_range] at hb2
    omega

theorem perm_range_erase_top {l : List Nat} {n : Nat}
    (h : l.Perm (List.range (n + 1))) : (l.erase n).Perm (List.range n) := by
  have h1 := h.erase n
  rwa [List.range_succ, List.erase_append_right _ (by simp [List.mem_range]),
    List.erase_cons_head, List.append_nil] at h1

theorem rotate_indexOf_head {l : List Nat} {a : Nat} (h : a ∈ l) :
    (l.rotate (l.indexOf a)).head? = some a := by
  have hlt : l.indexOf a < l.length := List.indexOf_lt_length.mpr h
  rw [List.rotate_eq_drop_append_take (le_of_lt hlt), List.head?_append,
    List.head?_drop, ← List.get?_eq_getElem?, List.indexOf_get? h]
  rfl

theorem get_path_ok_analysis (router : Router) (tsp : Tsp) (pl : Planner)
    (u : Coord) (spid : List Nat) (endId : Nat) (pl2 : Planner)
    (p : List Coord) (route : List Nat)
    (h0 : user_position_id ∉ spid)
    (hnodup : spid.Nodup)
    (hids : ∀ x ∈ spid, 1 ≤ x ∧ x ≤ pl.product_locations.length)
    (hnum : pl.num_products = pl.product_locations.length)
    (htsp : ∀ d, (tsp d).Perm
      (List.range ((get_max_index_value_in_dists d).getD 0 + 1)))
    (hok : get_path router tsp pl u spid endId = .ok (pl2, (p, route))) :
    pl2.dummy_id = spid.length + 1 ∧
    (route.head? = some user_position_id ∧
     route.Perm (user_position_id :: spid)) := by
  obtain ⟨hmem, hcases⟩ := get_path_ok_elim hok
  have hn1 : 1 ≤ spid.length := List.length_pos.mpr (List.ne_nil_of_mem hmem)
  have hL : 1 ≤ pl.product_locations.length := by
    have := (hids endId hmem).2
    have := (hids endId hmem).1
    omega
  rcases hcases with ⟨hz, _, _, _⟩ | hmain
  · rw [hnum] at hz
    omega
  obtain ⟨hz, m, route0, route2, hmax, hpl2, htsp0, hmap, hroll, hpath⟩ := hmain
  rw [if_neg h0] at hmax htsp0 hmap
  set spid' : List Nat := user_position_id :: spid with hspid'
  set n := spid.length with hn_def
  have hnodup' : spid'.Nodup := by
    rw [hspid']
    exact List.nodup_cons.mpr ⟨h0, hnodup⟩
  set dp1 := (calc_user_product_routes router pl u).1 with hdp1
  set fd := filter_dists spid' dp1 with hfd
  -- the maximal filtered index is n = spid'.length - 1
  have hlen' : spid'.length = n + 1 := by rw [hspid']; rfl
  -- the last element of spid' is at position n and yields the edge (0, n)
  have hlast_lt : n - 1 < spid.length := by omega
  set elast := spid[n - 1] with helast
  have helast_mem : elast ∈ spid := List.getElem_mem hlast_lt
  have helast_pos : 1 ≤ elast := (hids elast helast_mem).1
  have helast_le : elast ≤ pl.product_locations.length :=
    (hids elast helast_mem).2
  have huser_edge : ∃ c, (user_position_id, elast, c) ∈
      (userInner router pl.map u pl.product_locations 1).2 :=
    userInner_mem_edge pl.product_locations 1 elast helast_pos (by omega)
  obtain ⟨c, hc⟩ := huser_edge
  have hc2 : (user_position_id, elast, c) ∈ dp1 := by
    rw [hdp1]
    show _ ∈ pl.inter_product_distances ++
      (userInner router pl.map u pl.product_locations 1).2
    exact List.mem_append_right _ hc
  have h0mem : user_position_id ∈ spid' := List.mem_cons_self _ _
  have helast_mem' : elast ∈ spid' := List.mem_cons_of_mem _ helast_mem
  have hidx0 : spid'.indexOf user_position_id = 0 := by
    rw [hspid']
    exact List.indexOf_cons_self _ _
  have hidxlast : spid'.indexOf elast = n := by
    rw [hspid']
    rw [List.indexOf_cons_ne _
      (show user_position_id ≠ elast by unfold user_position_id; omega)]
    rw [helast, List.indexOf_getElem hnodup (n - 1) hlast_lt]
    omega
  -- the filtered graph contains the edge (0, n) and nothing beyond index n
  have hfd_edge : (0, n, c) ∈ fd := by
    have hstep := filter_dists_mem hc2 h0mem helast_mem'
    rw [hidx0, hidxlast] at hstep
    exact hstep
  have hmub : ∀ b ∈ fd.map (fun e => max e.1 e.2.1), b ≤ n := by
    intro b hb
    rcases List.mem_map.mp hb with ⟨e, he, heq⟩
    have hbd := filter_dists_bounds he
    rw [hlen'] at hbd
    omega
  have hmmem : n ∈ fd.map (fun e => max e.1 e.2.1) := by
    refine List.mem_map.mpr ⟨(0, n, c), hfd_edge, ?_⟩
    simp
  have hmax_n : get_max_index_value_in_dists fd = some n := by
    unfold get_max_index_value_in_dists
    rw [natMax?_eq_some]
    exact ⟨hmmem, hmub⟩
  have hm_eq : m = n := by
    rw [hmax_n] at hmax
    exact (Option.some.inj hmax).symm
  subst hm_eq
  refine ⟨by rw [hpl2], ?_⟩
  -- the solver input: maximal index is the dummy n + 1
  set fd2 := fd ++ [(user_position_id, n + 1, 1),
    (n + 1, spid.indexOf endId, 1)] with hfd2
  have hidx_end : spid.indexOf endId < n := by
    rw [hn_def]
    exact List.indexOf_lt_length.mpr hmem
  have hsorted_perm : (sortByFirst fd2).Perm fd2 := sortByFirst_perm _
  have hmax2 : get_max_index_value_in_dists (sortByFirst fd2) =
      some (n + 1) := by
    unfold get_max_index_value_in_dists
    rw [natMax?_congr_perm (hsorted_perm.map _), natMax?_eq_some]
    constructor
    · refine List.mem_map.mpr ⟨(user_position_id, n + 1, 1), ?_, ?_⟩
      · rw [hfd2]
        exact List.mem_append_right _ (by simp)
      · simp [user_position_id]
    · intro b hb
      rcases List.mem_map.mp hb with ⟨e, he, heq⟩
      rw [hfd2] at he
      rcases List.mem_append.mp he with h1 | h1
      · have hbd := filter_dists_bounds h1
        rw [hlen'] at hbd
        omega
      · simp only [List.mem_cons, List.mem_singleton] at h1
        rcases h1 with h1 | h1 | h1
        · rw [h1] at heq
          simp only [user_position_id] at heq
          omega
        · rw [h1] at heq
          simp only [] at heq
          omega
        · simp at h1
  obtain ⟨M, hM, hroute0⟩ := do_tsp_ok htsp0
  have hroute0_perm : route0.Perm (List.range (n + 2)) := by
    rw [hroute0]
    have hP := htsp (sortByFirst fd2)
    rw [hmax2] at hP
    simpa using hP
  -- the argmax blanking removes the dummy; mapping yields a permutation
  obtain ⟨hhead', mx, hmx, hroute2⟩ := map_to_spid_ok hmap
  have hmx_eq : mx = n + 1 := by
    rw [perm_range_max? (l := route0) (n := n + 1) (by simpa using hroute0_perm)]
      at hmx
    exact (Option.some.inj hmx).symm
  subst hmx_eq
  have herase_perm : (route0.erase (n + 1)).Perm (List.range (n + 1)) :=
    perm_range_erase_top (by simpa using hroute0_perm)
  have hroute2_perm : route2.Perm spid' := by
    rw [hroute2]
    have h1 : ((route0.erase (n + 1)).map (fun j => spid'.getD j 0)).Perm
        ((List.range (n + 1)).map (fun j => spid'.getD j 0)) :=
      herase_perm.map _
    have h2 : (List.range (n + 1)).map (fun j => spid'.getD j 0) = spid' := by
      have h3 := range_map_getD spid'
      rw [hlen'] at h3
      exact h3
    rw [h2] at h1
    exact h1
  -- rolling and flipping keep the user node first and preserve the elements
  obtain ⟨h0r, x, hx, hout⟩ := roll_route_ok hroll
  set rot := route2.rotate (route2.indexOf 0) with hrot
  have hrot_head : rot.head? = some 0 := rotate_indexOf_head h0r
  have hrot_perm : rot.Perm route2 := List.rotate_perm _ _
  cases hrot_cases : rot with
  | nil =>
    rw [hrot_cases] at hrot_head
    simp at hrot_head
  | cons z zs =>
    have hz0 : z = 0 := by
      rw [hrot_cases] at hrot_head
      simpa using hrot_head
    subst hz0
    rw [hrot_cases] at hrot_perm
    rw [hrot_cases] at hout
    constructor
    · by_cases hxe : x = spid.indexOf endId
      · rw [if_pos hxe] at hout
        rw [hout, List.rotate_cons_succ, List.rotate_zero,
          List.reverse_append]
        simp [user_position_id]
      · rw [if_neg hxe] at hout
        rw [hout]
        simp [user_position_id]
    · have hperm_route : route.Perm ((0 : Nat) :: zs) := by
        by_cases hxe : x = spid.indexOf endId
        · rw [if_pos hxe] at hout
          rw [hout]
          exact (List.reverse_perm _).trans (List.rotate_perm _ _)
        · rw [if_neg hxe] at hout
          rw [hout]
      exact hperm_route.trans (hrot_perm.trans hroute2_perm)

/-! ## C1: shape of the returned visit order -/

/-- **C1 (counterexample).** Requested stops `[1, 2, 3]`, mandatory end `2`,
and a solver returning the tour `[0, 4, 1, 3, 2]` — a permutation of all
five node indices in which the dummy node `4` is adjacent to both nodes it
is cheaply wired to.  `get_path` returns the visit order `[0, 2, 3, 1]`,
which ends at stop `1`, not at the mandatory end `2`: the end id is
converted to its position in the caller's list *before* the current-position
sentinel is prepended, so the wrong node is targeted. -/
theorem get_path_wrong_end_counterexample :
    get_path demoRouter demoTsp demoPlanner (1, 1) [1, 2, 3] 2 =
      .ok ({ demoPlanner with dummy_id := 4 },
        ([(1, 1), (0, 1), (0, 1), (1, 0), (1, 0), (0, 0)], [0, 2, 3, 1])) ∧
    ([0, 2, 3, 1] : List Nat).getLast? = some 1 ∧ (1 : Nat) ≠ 2 :=
  ⟨by rfl, by rfl, by decide⟩

/-- **C1 (amended).** For every non-empty caller list of valid, distinct
stop ids containing the mandatory end id (and not containing the sentinel),
whenever the solver returns a permutation of the node indices and `get_path`
succeeds, the returned visit order starts with the current-position node and
contains every requested stop exactly once and nothing else besides the
sentinel.  It does **not** in general end at the mandatory end id: the end
index is taken in the caller's list before the sentinel is prepended (see
the counterexample). -/
theorem get_path_route_shape (router : Router) (tsp : Tsp) (pl : Planner)
    (u : Coord) (spid : List Nat) (endId : Nat) (pl2 : Planner)
    (p : List Coord) (route : List Nat)
    (h0 : user_position_id ∉ spid)
    (hnodup : spid.Nodup)
    (hids : ∀ x ∈ spid, 1 ≤ x ∧ x ≤ pl.product_locations.length)
    (hnum : pl.num_products = pl.product_locations.length)
    (htsp : ∀ d, (tsp d).Perm
      (List.range ((get_max_index_value_in_dists d).getD 0 + 1)))
    (hok : get_path router tsp pl u spid endId = .ok (pl2, (p, route))) :
    route.head? = some user_position_id ∧
    route.Perm (user_position_id :: spid) :=
  (get_path_ok_analysis router tsp pl u spid endId pl2 p route
    h0 hnodup hids hnum htsp hok).2

theorem get_path_route_shape_witness :
    (user_position_id ∉ ([1, 2, 3] : List Nat) ∧
     ([1, 2, 3] : List Nat).Nodup ∧
     (∀ x ∈ ([1, 2, 3] : List Nat),
        1 ≤ x ∧ x ≤ demoPlanner.product_locations.length) ∧
     demoPlanner.num_products = demoPlanner.product_locations.length ∧
     get_path demoRouter idTsp demoPlanner (1, 1) [1, 2, 3] 2 =
       .ok ({ demoPlanner with dummy_id := 4 },
         ([(1, 1), (1, 0), (1, 0), (0, 1), (0, 1), (0, 0)], [0, 3, 2, 1]))) ∧
    (([0, 3, 2, 1] : List Nat).head? = some user_position_id ∧
     ([0, 3, 2, 1] : List Nat).Perm (user_position_id :: [1, 2, 3])) :=
  ⟨⟨by decide, by decide, by decide, by rfl, by rfl⟩,
   get_path_route_shape demoRouter idTsp demoPlanner (1, 1) [1, 2, 3] 2
     { demoPlanner with dummy_id := 4 }
     [(1, 1), (1, 0), (1, 0), (0, 1), (0, 1), (0, 0)] [0, 3, 2, 1]
     (by decide) (by decide) (by decide) (by rfl)
     (fun d => List.Perm.refl _) (by rfl)⟩

/-! ## C6: the dummy node -/

/-- **C6 (counterexample).** In the demo query (stops `[1, 2, 3]`, mandatory
end `2`), `get_path` calls `_insert_dummy_node` with the end index taken in
the caller's list before the sentinel is prepended: the two dummy edges are
`(0, 4, 1)` and `(4, 1, 1)`, wiring the dummy node `4` to node `1`, while
the mandatory end sits at node index
`(user_position_id :: [1, 2, 3]).indexOf 2 = 2` of the per-query graph —
the dummy is not connected to the mandatory-end node. -/
theorem insert_dummy_wrong_node_counterexample :
    insert_dummy_node demoPlanner
        (filter_dists (user_position_id :: [1, 2, 3])
          (calc_user_product_routes demoRouter demoPlanner (1, 1)).1)
        (([1, 2, 3] : List Nat).indexOf 2) =
      .ok ({ demoPlanner with dummy_id := 4 },
        [(1, 2, 1), (1, 3, 1), (2, 3, 1), (0, 1, 1), (0, 2, 1), (0, 3, 1),
         (0, 4, 1), (4, 1, 1)]) ∧
    (user_position_id :: [1, 2, 3] : List Nat).indexOf 2 = 2 ∧
    ((4, 2, 1) : DistEdge) ∉
      [((1 : Nat), (2 : Nat), (1 : Int)), (1, 3, 1), (2, 3, 1), (0, 1, 1),
       (0, 2, 1), (0, 3, 1), (0, 4, 1), (4, 1, 1)] ∧
    ((2, 4, 1) : DistEdge) ∉
      [((1 : Nat), (2 : Nat), (1 : Int)), (1, 3, 1), (2, 3, 1), (0, 1, 1),
       (0, 2, 1), (0, 3, 1), (0, 4, 1), (4, 1, 1)] :=
  ⟨by rfl, by rfl, by decide, by decide⟩

/-- **C6 (amended).** `_insert_dummy_node` sets the dummy id to one more
than the maximal node index of its input graph and appends exactly the two
fixed-cost-1 edges `(user, dummy)` and `(dummy, end_id)` — but within
`get_path` the `end_id` it receives is the position of the mandatory end in
the caller's list before the sentinel is prepended, i.e. the node *one
before* the mandatory end (see the counterexample), not the mandatory-end
node.  Under the solver-permutation assumption the dummy id equals
`|selected| + 1`, and whenever that value is not itself a requested stop id
the dummy node never appears in the returned visit order. -/
theorem dummy_node_spec :
    (∀ (pl : Planner) (dists : List DistEdge) (end_id : Nat) (pl2 : Planner)
       (out : List DistEdge),
       insert_dummy_node pl dists end_id = .ok (pl2, out) →
       ∃ m, get_max_index_value_in_dists dists = some m ∧
         pl2.dummy_id = m + 1 ∧
         out = dists ++ [(user_position_id, m + 1, 1), (m + 1, end_id, 1)]) ∧
    (∀ (router : Router) (tsp : Tsp) (pl : Planner) (u : Coord)
       (spid : List Nat) (endId : Nat) (pl2 : Planner) (p : List Coord)
       (route : List Nat),
       user_position_id ∉ spid → spid.Nodup →
       (∀ x ∈ spid, 1 ≤ x ∧ x ≤ pl.product_locations.length) →
       pl.num_products = pl.product_locations.length →
       (∀ d, (tsp d).Perm
         (List.range ((get_max_index_value_in_dists d).getD 0 + 1))) →
       get_path router tsp pl u spid endId = .ok (pl2, (p, route)) →
       pl2.dummy_id = spid.length + 1 ∧
       (spid.length + 1 ∉ spid → pl2.dummy_id ∉ route)) := by
  constructor
  · intro pl dists end_id pl2 out h
    rcases insert_dummy_node_ok h with ⟨m, _, hmax, hpl2, hout⟩
    exact ⟨m, hmax, by rw [hpl2], hout⟩
  · intro router tsp pl u spid endId pl2 p route h0 hnodup hids hnum htsp hok
    obtain ⟨hdum, _, hperm⟩ := get_path_ok_analysis router tsp pl u spid
      endId pl2 p route h0 hnodup hids hnum htsp hok
    refine ⟨hdum, ?_⟩
    intro hnotin hin
    have hmem2 := hperm.mem_iff.mp hin
    rcases List.mem_cons.mp hmem2 with h1 | h1
    · rw [hdum] at h1
      simp [user_position_id] at h1
    · rw [hdum] at h1
      exact hnotin h1

theorem dummy_node_spec_witness :
    (user_position_id ∉ ([1, 2, 3] : List Nat) ∧
     ([1, 2, 3] : List Nat).Nodup ∧
     (∀ x ∈ ([1, 2, 3] : List Nat),
        1 ≤ x ∧ x ≤ demoPlanner.product_locations.length) ∧
     demoPlanner.num_products = demoPlanner.product_locations.length ∧
     get_path demoRouter idTsp demoPlanner (1, 1) [1, 2, 3] 2 =
       .ok ({ demoPlanner with dummy_id := 4 },
         ([(1, 1), (1, 0), (1, 0), (0, 1), (0, 1), (0, 0)], [0, 3, 2, 1]))) ∧
    (({ demoPlanner with dummy_id := 4 } : Planner).dummy_id =
        ([1, 2, 3] : List Nat).length + 1 ∧
     (([1, 2, 3] : List Nat).length + 1 ∉ ([1, 2, 3] : List Nat) →
       ({ demoPlanner with dummy_id := 4 } : Planner).dummy_id ∉
         ([0, 3, 2, 1] : List Nat))) :=
  ⟨⟨by decide, by decide, by decide, by rfl, by rfl⟩,
   dummy_node_spec.2 demoRouter idTsp demoPlanner (1, 1) [1, 2, 3] 2
     { demoPlanner with dummy_id := 4 }
     [(1, 1), (1, 0), (1, 0), (0, 1), (0, 1), (0, 0)] [0, 3, 2, 1]
     (by decide) (by decide) (by decide) (by rfl)
     (fun d => List.Perm.refl _) (by rfl)⟩
